import Mathlib

/-!
Verification of the Preptura diagnostics engine and cleaning function.

The embedding follows `src/app.py` (`PrepturaApp._run_diagnostics`,
`PrepturaApp._save_file`) and `src/preptura_gui.py`
(`PrepturaApp.run_diagnostics`, `PrepturaApp.save_file`), which operate on a
pandas DataFrame loaded by `pd.read_csv`.
-/

namespace Preptura

/-- A cell of a loaded table.  Through `pd.read_csv` (the only loader used by
the application) a missing value is represented as NaN, whose Python runtime
type is `float`; non-missing cells carry one of the four primitive kinds. -/
inductive Cell where
  | intVal (n : Int)
  | floatVal (q : ℚ)
  | strVal (s : String)
  | boolVal (b : Bool)
  | missing
deriving DecidableEq, Repr

/-- Python runtime types that `type(cell)` can return for a cell of a loaded
table. -/
inductive PyType where
  | pyInt
  | pyFloat
  | pyStr
  | pyBool
deriving DecidableEq, Repr

/-- The runtime type of a cell, as computed by `self.df[col].map(type)` in
`_run_diagnostics`: NaN (the missing marker produced by `pd.read_csv`) is a
Python `float`. -/
def runtimeType : Cell → PyType
  | .intVal _ => .pyInt
  | .floatVal _ => .pyFloat
  | .strVal _ => .pyStr
  | .boolVal _ => .pyBool
  | .missing => .pyFloat

/-- Whether a cell is missing, as computed by pandas `isnull()`. -/
def isMissing : Cell → Bool
  | .missing => true
  | _ => false

/-- The primitive kind of a non-missing cell, per the spec's five-kind
vocabulary (`integer | float | string | boolean | missing`); `none` for a
missing cell.  Used only to state spec-side properties about the kind census
of non-missing cells. -/
def cellKind : Cell → Option PyType
  | .intVal _ => some .pyInt
  | .floatVal _ => some .pyFloat
  | .strVal _ => some .pyStr
  | .boolVal _ => some .pyBool
  | .missing => none

/-- An in-memory table: ordered column names plus the rows, each row an
ordered list of cells (one per column).  Mirrors the DataFrame held in
`self.df`. -/
structure TabularDataset where
  colNames : List String
  rows : List (List Cell)
deriving DecidableEq, Repr

def TabularDataset.ncols (d : TabularDataset) : Nat := d.colNames.length

def TabularDataset.nrows (d : TabularDataset) : Nat := d.rows.length

/-- Rectangularity: every row has exactly one cell per column.  This is the
data-model invariant guaranteed by the Table Loader. -/
def TabularDataset.wf (d : TabularDataset) : Prop :=
  ∀ r ∈ d.rows, r.length = d.colNames.length

instance (d : TabularDataset) : Decidable d.wf := by
  unfold TabularDataset.wf
  exact List.decidableBAll _ _

/-- The cells of column `j`, top to bottom (`self.df[c]`). -/
def col (d : TabularDataset) (j : Nat) : List Cell :=
  d.rows.map (fun r => r.getD j Cell.missing)

/-- `self.df[c].isnull().all()`: every cell of column `j` is missing
(vacuously true when there are no rows). -/
def colFullyMissing (d : TabularDataset) (j : Nat) : Bool :=
  (col d j).all isMissing

/-- `self.df.isnull().all(axis=1)` for one row: every cell in the row is
missing (vacuously true when there are no columns). -/
def rowFullyMissing (r : List Cell) : Bool :=
  r.all isMissing

/-- The empty-columns check:
`[c for c in self.df.columns if self.df[c].isnull().all()]`. -/
def emptyColumns (d : TabularDataset) : List String :=
  ((List.range d.ncols).filter (fun j => colFullyMissing d j)).map
    (fun j => d.colNames.getD j "")

/-- The empty-rows check: `len(self.df[self.df.isnull().all(axis=1)])`. -/
def emptyRowCount (d : TabularDataset) : Nat :=
  (d.rows.filter (fun r => rowFullyMissing r)).length

/-- The mixed-type condition for one column:
`self.df[col].map(type).nunique() > 1`. -/
def colIsMixed (d : TabularDataset) (j : Nat) : Bool :=
  decide (1 < ((col d j).map runtimeType).dedup.length)

/-- Indices of the columns flagged by the mixed-type check, in column order. -/
def mixedIdxs (d : TabularDataset) : List Nat :=
  (List.range d.ncols).filter (fun j => colIsMixed d j)

/-- `self.df[col].map(type).value_counts().to_dict()`: the runtime-type
histogram of a column.  (pandas orders the dict by descending count; no
property here depends on the order, so entries are listed in first-occurrence
order.) -/
def typeHistogram (cells : List Cell) : List (PyType × Nat) :=
  (cells.map runtimeType).dedup.map
    (fun t => (t, (cells.map runtimeType).count t))

/-- The mixed-types check: the `issues` dict built in `_run_diagnostics`,
keyed by column name in column order. -/
def mixedTypeColumns (d : TabularDataset) : List (String × List (PyType × Nat)) :=
  (mixedIdxs d).map (fun j => (d.colNames.getD j "", typeHistogram (col d j)))

/-- Python's `str.startswith`: the characters of the candidate leading text
begin the characters of the string. -/
def pyStartsWith (s pat : String) : Bool :=
  pat.toList.isPrefixOf s.toList

/-- The missing-headers check:
`any(str(c).startswith("Unnamed") for c in self.df.columns)`. -/
def headersMissingSuspected (d : TabularDataset) : Bool :=
  d.colNames.any (fun c => pyStartsWith c "Unnamed")

/-- Which checks are enabled (`self.diagnostics_config`). -/
structure DiagnosticsConfig where
  empty_columns : Bool
  empty_rows : Bool
  missing_headers : Bool
  mixed_types : Bool
deriving DecidableEq, Repr

/-- The structured diagnostic report assembled by `_run_diagnostics`: the
shape fields are always produced; each check's field is present (`some`)
exactly when the check ran. -/
structure DiagnosticReport where
  row_count : Nat
  column_count : Nat
  column_names : List String
  empty_columns : Option (List String)
  empty_row_count : Option Nat
  mixed_type_columns : Option (List (String × List (PyType × Nat)))
  headers_missing_suspected : Option Bool
deriving DecidableEq, Repr

/-- The diagnostics engine, `PrepturaApp._run_diagnostics`: shape and column
names are always reported; each of the four checks runs iff its flag in the
configuration is set, and a skipped check contributes no field. -/
def runDiagnostics (d : TabularDataset) (cfg : DiagnosticsConfig) : DiagnosticReport :=
  { row_count := d.nrows
    column_count := d.ncols
    column_names := d.colNames
    empty_columns := if cfg.empty_columns then some (emptyColumns d) else none
    empty_row_count := if cfg.empty_rows then some (emptyRowCount d) else none
    mixed_type_columns := if cfg.mixed_types then some (mixedTypeColumns d) else none
    headers_missing_suspected :=
      if cfg.missing_headers then some (headersMissingSuspected d) else none }

/-- `self.df.dropna(how="all")`: drop every row whose cells are all missing. -/
def dropEmptyRows (d : TabularDataset) : TabularDataset :=
  { colNames := d.colNames
    rows := d.rows.filter (fun r => !(rowFullyMissing r)) }

/-- Indices of the columns that survive `dropna(axis=1, how="all")`. -/
def keepIdxs (d : TabularDataset) : List Nat :=
  (List.range d.ncols).filter (fun j => !(colFullyMissing d j))

/-- `dropna(axis=1, how="all")`: drop every column whose cells are all
missing, keeping the remaining columns in order. -/
def dropEmptyCols (d : TabularDataset) : TabularDataset :=
  { colNames := (keepIdxs d).map (fun j => d.colNames.getD j "")
    rows := d.rows.map (fun r => (keepIdxs d).map (fun j => r.getD j Cell.missing)) }

/-- The cleaning function, `PrepturaApp._save_file`:
`self.df.dropna(how="all").dropna(axis=1, how="all")` — drop fully-missing
rows, then drop the columns that are fully missing in the row-filtered
result. -/
def clean (d : TabularDataset) : TabularDataset :=
  dropEmptyCols (dropEmptyRows d)

/-- The cleaning function as the spec describes it: keep exactly the rows of
`d` that are not fully missing and the columns of `d` that are not fully
missing, both judged on the original dataset `d`, preserving the original
relative order of the survivors. -/
def cleanSpec (d : TabularDataset) : TabularDataset :=
  { colNames := (keepIdxs d).map (fun j => d.colNames.getD j "")
    rows := (d.rows.filter (fun r => !(rowFullyMissing r))).map
      (fun r => (keepIdxs d).map (fun j => r.getD j Cell.missing)) }

/-! Helper lemmas about lists and the embedding. -/

/-- Reading a list back index by index with `getD` over `List.range` returns
the list itself. -/
theorem range_map_getD {α : Type} (l : List α) (dflt : α) :
    (List.range l.length).map (fun j => l.getD j dflt) = l := by
  induction l with
  | nil => rfl
  | cons a t ih =>
    show (List.range (t.length + 1)).map (fun j => (a :: t).getD j dflt) = a :: t
    rw [List.range_succ_eq_map, List.map_cons, List.map_map]
    refine congrArg₂ _ List.getD_cons_zero ?_
    calc (List.range t.length).map ((fun j => (a :: t).getD j dflt) ∘ Nat.succ)
        = (List.range t.length).map (fun j => t.getD j dflt) := by
          refine List.map_congr_left ?_
          intro j _
          exact List.getD_cons_succ
      _ = t := ih

/-- A missing cell has runtime type `float` (NaN is a Python float). -/
theorem runtimeType_of_missing {c : Cell} (h : isMissing c = true) :
    runtimeType c = PyType.pyFloat := by
  cases c <;> simp_all [isMissing, runtimeType]

/-- Every positional read from a fully-missing row yields a missing cell
(the out-of-range default is the missing marker as well). -/
theorem getD_missing_of_fullyMissing {r : List Cell} (h : rowFullyMissing r = true)
    (j : Nat) : isMissing (r.getD j Cell.missing) = true := by
  by_cases hj : j < r.length
  · rw [List.getD_eq_getElem r Cell.missing hj]
    exact (List.all_eq_true.mp h) _ (List.getElem_mem hj)
  · rw [List.getD_eq_default r Cell.missing (Nat.le_of_not_lt hj)]
    rfl

/-- A row that is not fully missing has a non-missing cell at some valid
index. -/
theorem exists_nonmissing_of_not_fullyMissing {r : List Cell}
    (h : rowFullyMissing r = false) :
    ∃ j, ∃ _ : j < r.length, isMissing (r.getD j Cell.missing) = false := by
  unfold rowFullyMissing at h
  rw [← Bool.not_eq_true, List.all_eq_true] at h
  push_neg at h
  obtain ⟨c, hc, hcm⟩ := h
  obtain ⟨j, hj, hje⟩ := List.mem_iff_getElem.mp hc
  refine ⟨j, hj, ?_⟩
  rw [List.getD_eq_getElem r Cell.missing hj, hje]
  exact Bool.not_eq_true _ ▸ hcm

/-- Filtering with `p` and then testing `q ∘ g` agrees with testing `q ∘ g` on
the whole list, provided every element rejected by `p` passes the test. -/
theorem all_map_filter {α β : Type} (p : α → Bool) (g : α → β) (q : β → Bool)
    (l : List α) (h : ∀ a ∈ l, p a = false → q (g a) = true) :
    ((l.filter p).map g).all q = (l.map g).all q := by
  induction l with
  | nil => rfl
  | cons a t ih =>
    have ht : ∀ x ∈ t, p x = false → q (g x) = true :=
      fun x hx => h x (List.mem_cons_of_mem _ hx)
    by_cases hp : p a = true
    · simp [List.filter_cons, hp, ih ht]
    · have hp' : p a = false := by simpa using hp
      have hq := h a (List.mem_cons_self _ _) hp'
      simp [List.filter_cons, hp', ih ht, hq]

/-- Mapping and filtering commute when the predicate factors through the
map. -/
theorem filter_map_comm {α β : Type} (f : α → β) (p : α → Bool) (q : β → Bool)
    (l : List α) (h : ∀ a ∈ l, q (f a) = p a) :
    (l.map f).filter q = (l.filter p).map f := by
  induction l with
  | nil => rfl
  | cons a t ih =>
    have ht : ∀ x ∈ t, q (f x) = p x := fun x hx => h x (List.mem_cons_of_mem _ hx)
    have ha := h a (List.mem_cons_self _ _)
    by_cases hp : p a = true
    · simp [List.filter_cons, hp, ha, ih ht]
    · have hp' : p a = false := by simpa using hp
      rw [hp'] at ha
      simp [List.filter_cons, hp', ha, ih ht]

/-- A list of values maps to fewer than two distinct dedup entries exactly
when it contains two distinct values. -/
theorem one_lt_dedup_length_iff {α : Type} [DecidableEq α] (l : List α) :
    1 < l.dedup.length ↔ ∃ a ∈ l, ∃ b ∈ l, a ≠ b := by
  constructor
  · intro h
    match hd : l.dedup with
    | [] => rw [hd] at h; simp at h
    | [x] => rw [hd] at h; simp at h
    | x :: y :: t =>
      have hx : x ∈ l.dedup := by rw [hd]; exact List.mem_cons_self _ _
      have hy : y ∈ l.dedup := by
        rw [hd]; exact List.mem_cons_of_mem _ (List.mem_cons_self _ _)
      have hnd := l.nodup_dedup
      rw [hd] at hnd
      have hxy : x ≠ y := by
        intro hEq
        exact (List.nodup_cons.mp hnd).1 (hEq ▸ List.mem_cons_self _ _)
      exact ⟨x, List.mem_dedup.mp hx, y, List.mem_dedup.mp hy, hxy⟩
  · rintro ⟨a, ha, b, hb, hab⟩
    have ha' : a ∈ l.dedup := List.mem_dedup.mpr ha
    have hb' : b ∈ l.dedup := List.mem_dedup.mpr hb
    match hd : l.dedup with
    | [] => rw [hd] at ha'; simp at ha'
    | [x] =>
      rw [hd] at ha' hb'
      simp at ha' hb'
      exact absurd (ha'.trans hb'.symm) hab
    | x :: y :: t => simp

/-- Dropping fully-missing rows does not change whether a column is fully
missing: the dropped rows contribute only missing cells to every column. -/
theorem colFullyMissing_dropEmptyRows (d : TabularDataset) (j : Nat) :
    colFullyMissing (dropEmptyRows d) j = colFullyMissing d j := by
  unfold colFullyMissing col dropEmptyRows
  refine all_map_filter _ _ _ d.rows ?_
  intro r _ hp
  have hr : rowFullyMissing r = true := by simpa using hp
  exact getD_missing_of_fullyMissing hr j

/-- The columns surviving the column pass are the same whether or not the
fully-missing rows were dropped first. -/
theorem keepIdxs_dropEmptyRows (d : TabularDataset) :
    keepIdxs (dropEmptyRows d) = keepIdxs d := by
  unfold keepIdxs
  have hn : (dropEmptyRows d).ncols = d.ncols := rfl
  rw [hn]
  refine List.filter_congr ?_
  intro j _
  rw [colFullyMissing_dropEmptyRows]

/-- The sequential two-pass cleaning of the source equals the spec's
independent-partition description: both passes judged on the original
dataset. -/
theorem clean_eq_cleanSpec_aux (d : TabularDataset) : clean d = cleanSpec d := by
  unfold clean cleanSpec dropEmptyCols
  rw [keepIdxs_dropEmptyRows]
  rfl

/-- A column index holding a non-missing cell of some row survives the
column pass. -/
theorem mem_keepIdxs_of_nonmissing {d : TabularDataset} {r : List Cell} {j : Nat}
    (hr : r ∈ d.rows) (hj : j < d.colNames.length)
    (hc : isMissing (r.getD j Cell.missing) = false) : j ∈ keepIdxs d := by
  unfold keepIdxs
  rw [List.mem_filter, List.mem_range]
  refine ⟨hj, ?_⟩
  have hcm : colFullyMissing d j = false := by
    by_contra hcf
    have hcf' : colFullyMissing d j = true := by simpa using hcf
    unfold colFullyMissing col at hcf'
    have := List.all_eq_true.mp hcf' (r.getD j Cell.missing)
      (List.mem_map.mpr ⟨r, hr, rfl⟩)
    rw [this] at hc
    exact Bool.true_eq_false.mp hc
  rw [hcm]
  rfl

/-- Projecting a row of a rectangular dataset onto the surviving columns
preserves whether the row is fully missing. -/
theorem proj_fullyMissing {d : TabularDataset} {r : List Cell}
    (hr : r ∈ d.rows) (hlen : r.length = d.colNames.length) :
    rowFullyMissing ((keepIdxs d).map (fun j => r.getD j Cell.missing)) =
      rowFullyMissing r := by
  cases hfull : rowFullyMissing r with
  | true =>
    unfold rowFullyMissing
    rw [List.all_eq_true]
    intro c hc
    obtain ⟨j, _, hje⟩ := List.mem_map.mp hc
    rw [← hje]
    exact getD_missing_of_fullyMissing hfull j
  | false =>
    obtain ⟨j, hj, hcm⟩ := exists_nonmissing_of_not_fullyMissing hfull
    have hk : j ∈ keepIdxs d := mem_keepIdxs_of_nonmissing hr (hlen ▸ hj) hcm
    unfold rowFullyMissing
    rw [← Bool.not_eq_true, List.all_eq_true]
    intro hall
    have := hall (r.getD j Cell.missing) (List.mem_map.mpr ⟨j, hk, rfl⟩)
    rw [this] at hcm
    exact Bool.true_eq_false.mp hcm

/-- The cleaned dataset is rectangular: every row has one cell per surviving
column. -/
theorem clean_wf (d : TabularDataset) : (clean d).wf := by
  intro r hr
  unfold clean dropEmptyCols at hr ⊢
  obtain ⟨r₀, _, hre⟩ := List.mem_map.mp hr
  simp [← hre]

/-- No row of the cleaned dataset is fully missing. -/
theorem clean_no_empty_rows {d : TabularDataset} (hwf : d.wf) :
    ∀ r ∈ (clean d).rows, rowFullyMissing r = false := by
  intro r hr
  rw [clean_eq_cleanSpec_aux] at hr
  unfold cleanSpec at hr
  obtain ⟨r₀, hr₀, hre⟩ := List.mem_map.mp hr
  rw [List.mem_filter] at hr₀
  have hfull : rowFullyMissing r₀ = false := by
    have := hr₀.2
    simpa using this
  rw [← hre, proj_fullyMissing hr₀.1 (hwf r₀ hr₀.1)]
  exact hfull

/-- No column of the cleaned dataset is fully missing. -/
theorem clean_no_empty_cols (d : TabularDataset) :
    ∀ j < (clean d).ncols, colFullyMissing (clean d) j = false := by
  intro j hj
  rw [clean_eq_cleanSpec_aux] at hj ⊢
  unfold TabularDataset.ncols cleanSpec at hj
  simp only [List.length_map] at hj
  -- the original column index behind position `j` of the cleaned dataset
  have hjj : (keepIdxs d).get ⟨j, hj⟩ ∈ keepIdxs d := List.get_mem _ _ _
  set jj := (keepIdxs d).get ⟨j, hj⟩ with hjjdef
  unfold keepIdxs at hjj
  rw [List.mem_filter, List.mem_range] at hjj
  have hcm : colFullyMissing d jj = false := by
    have := hjj.2
    simpa using this
  -- some row of `d` has a non-missing cell in column `jj`
  unfold colFullyMissing at hcm
  rw [← Bool.not_eq_true, List.all_eq_true] at hcm
  push_neg at hcm
  obtain ⟨c, hc, hcmiss⟩ := hcm
  unfold col at hc
  obtain ⟨r, hrmem, hre⟩ := List.mem_map.mp hc
  have hcmiss' : isMissing (r.getD jj Cell.missing) = false := by
    rw [hre]
    exact Bool.not_eq_true _ ▸ hcmiss
  -- that row survives the row pass, so its projection witnesses the column
  have hrfull : rowFullyMissing r = false := by
    by_contra hrf
    have hrf' : rowFullyMissing r = true := by simpa using hrf
    rw [getD_missing_of_fullyMissing hrf' jj] at hcmiss'
    exact Bool.true_eq_false.mp hcmiss'
  unfold cleanSpec colFullyMissing col
  rw [← Bool.not_eq_true, List.all_eq_true]
  intro hall
  have hproj : ((keepIdxs d).map (fun i => r.getD i Cell.missing)) ∈
      ((d.rows.filter (fun r => !(rowFullyMissing r))).map
        (fun r => (keepIdxs d).map (fun i => r.getD i Cell.missing))) :=
    List.mem_map.mpr ⟨r, List.mem_filter.mpr ⟨hrmem, by rw [hrfull]; rfl⟩, rfl⟩
  have hcell := hall
    (((keepIdxs d).map (fun i => r.getD i Cell.missing)).getD j Cell.missing)
    (List.mem_map.mpr ⟨(keepIdxs d).map (fun i => r.getD i Cell.missing), hproj, rfl⟩)
  have hidx : ((keepIdxs d).map (fun i => r.getD i Cell.missing)).getD j Cell.missing =
      r.getD jj Cell.missing := by
    have hjm : j < ((keepIdxs d).map (fun i => r.getD i Cell.missing)).length := by
      simpa using hj
    rw [List.getD_eq_getElem _ Cell.missing hjm, List.getElem_map]
    rfl
  rw [hidx] at hcell
  rw [hcell] at hcmiss'
  exact Bool.true_eq_false.mp hcmiss'

/-- A dataset with no fully-missing row is unchanged by the row pass. -/
theorem dropEmptyRows_eq_self {d : TabularDataset}
    (h : ∀ r ∈ d.rows, rowFullyMissing r = false) : dropEmptyRows d = d := by
  unfold dropEmptyRows
  cases d with
  | mk names rows =>
    simp only [TabularDataset.mk.injEq, true_and]
    refine List.filter_eq_self.mpr ?_
    intro r hr
    rw [h r hr]
    rfl

/-- A rectangular dataset with no fully-missing column is unchanged by the
column pass. -/
theorem dropEmptyCols_eq_self {d : TabularDataset} (hwf : d.wf)
    (h : ∀ j < d.ncols, colFullyMissing d j = false) : dropEmptyCols d = d := by
  have hK : keepIdxs d = List.range d.ncols := by
    unfold keepIdxs
    refine List.filter_eq_self.mpr ?_
    intro j hj
    rw [h j (List.mem_range.mp hj)]
    rfl
  unfold dropEmptyCols
  rw [hK]
  cases d with
  | mk names rows =>
    have hwf' : ∀ r ∈ rows, r.length = names.length := hwf
    simp only [TabularDataset.mk.injEq]
    constructor
    · exact range_map_getD names ""
    · calc rows.map (fun r => (List.range (TabularDataset.mk names rows).ncols).map
            (fun j => r.getD j Cell.missing))
          = rows.map id := by
            refine List.map_congr_left ?_
            intro r hr
            show (List.range names.length).map (fun j => r.getD j Cell.missing) = r
            rw [← hwf' r hr]
            exact range_map_getD r Cell.missing
        _ = rows := List.map_id rows

/-- A column index is flagged by the mixed-type check exactly when it is a
real column index and two of its cells (missing cells included, since NaN is
typed `float`) have distinct runtime types. -/
theorem mem_mixedIdxs_iff (d : TabularDataset) (j : Nat) :
    j ∈ mixedIdxs d ↔ j < d.ncols ∧
      ∃ x ∈ col d j, ∃ y ∈ col d j, runtimeType x ≠ runtimeType y := by
  unfold mixedIdxs colIsMixed
  rw [List.mem_filter, List.mem_range, decide_eq_true_iff, one_lt_dedup_length_iff]
  constructor
  · rintro ⟨hj, a, ha, b, hb, hab⟩
    obtain ⟨x, hx, hxe⟩ := List.mem_map.mp ha
    obtain ⟨y, hy, hye⟩ := List.mem_map.mp hb
    exact ⟨hj, x, hx, y, hy, by rw [hxe, hye]; exact hab⟩
  · rintro ⟨hj, x, hx, y, hy, hxy⟩
    exact ⟨hj, runtimeType x, List.mem_map.mpr ⟨x, hx, rfl⟩,
      runtimeType y, List.mem_map.mpr ⟨y, hy, rfl⟩, hxy⟩

/-- With unique column names, a name occurs among the mixed-type report keys
exactly when its column index is flagged. -/
theorem mem_mixedTypeColumns_iff {d : TabularDataset} {j : Nat}
    (hj : j < d.ncols) (hnd : d.colNames.Nodup) :
    d.colNames.getD j "" ∈ (mixedTypeColumns d).map Prod.fst ↔ j ∈ mixedIdxs d := by
  unfold mixedTypeColumns
  rw [List.map_map]
  constructor
  · intro h
    obtain ⟨j', hj', hje⟩ := List.mem_map.mp h
    have hje' : d.colNames.getD j' "" = d.colNames.getD j "" := hje
    have hj'lt : j' < d.ncols :=
      List.mem_range.mp (List.mem_of_mem_filter hj')
    have hee : d.colNames.get ⟨j', hj'lt⟩ = d.colNames.get ⟨j, hj⟩ := by
      rw [List.get_eq_getElem, List.get_eq_getElem,
        ← List.getD_eq_getElem d.colNames "" hj'lt,
        ← List.getD_eq_getElem d.colNames "" hj]
      exact hje'
    have hfin : (⟨j', hj'lt⟩ : Fin d.colNames.length) = ⟨j, hj⟩ :=
      (List.Nodup.get_inj_iff hnd).mp hee
    have : j' = j := congrArg Fin.val hfin
    exact this ▸ hj'
  · intro h
    exact List.mem_map.mpr ⟨j, h, rfl⟩

/-- Modelled from the spec's words (§4.1 mixed-type check): the census of
primitive kinds among the non-missing cells of a column. -/
def specNonMissingKinds (cells : List Cell) : List PyType :=
  (cells.filterMap cellKind).dedup

/-! Concrete datasets used as counterexamples and witnesses. -/

/-- A one-column dataset whose cells are one string and one missing value. -/
def exMixed : TabularDataset :=
  ⟨["A"], [[Cell.strVal "x"], [Cell.missing]]⟩

/-- The dataset of spec scenario B: placeholder-style names
`Column_0, Column_1, Column_2`. -/
def exPlaceholder : TabularDataset :=
  ⟨["Column_0", "Column_1", "Column_2"],
   [[Cell.intVal 1, Cell.intVal 2, Cell.intVal 3]]⟩

/-- A dataset with zero columns and one row. -/
def exZeroCols : TabularDataset := ⟨[], [[]]⟩

/-- A dataset with one fully-missing row and one fully-missing column. -/
def exCleanable : TabularDataset :=
  ⟨["Name", "Unused"],
   [[Cell.strVal "Alice", Cell.missing], [Cell.missing, Cell.missing]]⟩

/-- A dataset with two columns and zero rows. -/
def exZeroRows : TabularDataset := ⟨["A", "B"], []⟩

/-- A dataset whose first column is fully missing and whose second column is
mixed-typed. -/
def exAllMissingCol : TabularDataset :=
  ⟨["A", "B"], [[Cell.missing, Cell.intVal 1], [Cell.missing, Cell.strVal "y"]]⟩

/-- The application's default configuration: all four checks enabled. -/
def allChecksOn : DiagnosticsConfig := ⟨true, true, true, true⟩

/-! The claims. -/

/-- C1 (counterexample): the claim "a column appears in `mixed_type_columns`
iff its non-missing cells span at least two distinct primitive kinds" fails
on the code.  In `exMixed` the column "A" holds one string cell and one
missing cell — a single non-missing kind — yet the check flags it, because
`map(type)` types the NaN missing marker as `float`. -/
theorem c1_counterexample :
    ¬ (("A" ∈ (mixedTypeColumns exMixed).map Prod.fst) ↔
        2 ≤ (specNonMissingKinds (col exMixed 0)).length) := by
  decide

/-- C1 (amended): a column appears in `mixed_type_columns` iff two of its
cells — missing cells included, each contributing the `float` runtime type of
NaN — have distinct runtime types.  In particular two distinct non-missing
kinds still flag the column, but so does a missing cell next to any
non-float cell. -/
theorem c1_mixed_membership_by_runtime_type {d : TabularDataset} {j : Nat}
    (hj : j < d.ncols) (hnd : d.colNames.Nodup) :
    d.colNames.getD j "" ∈ (mixedTypeColumns d).map Prod.fst ↔
      ∃ x ∈ col d j, ∃ y ∈ col d j, runtimeType x ≠ runtimeType y := by
  rw [mem_mixedTypeColumns_iff hj hnd, mem_mixedIdxs_iff]
  simp [hj]

/-- Witness for C1 (amended) at the concrete dataset `exMixed`. -/
theorem c1_mixed_membership_by_runtime_type_witness :
    0 < exMixed.ncols ∧ exMixed.colNames.Nodup ∧
    (exMixed.colNames.getD 0 "" ∈ (mixedTypeColumns exMixed).map Prod.fst ↔
      ∃ x ∈ col exMixed 0, ∃ y ∈ col exMixed 0, runtimeType x ≠ runtimeType y) :=
  ⟨by decide, by decide,
    c1_mixed_membership_by_runtime_type (by decide) (by decide)⟩

/-- C2 (counterexample): the claim that loader placeholder names
`Column_0, Column_1, Column_2` set `headers_missing_suspected` fails on the
code, which pattern-matches column names against the pandas placeholder
`Unnamed`; on `exPlaceholder` the report's flag is not `some true`. -/
theorem c2_counterexample :
    ¬ ((runDiagnostics exPlaceholder allChecksOn).headers_missing_suspected =
        some true) := by
  decide

/-- C2 (amended): the report's `headers_missing_suspected` field is
`some true` iff the check is enabled and some column name starts with the
pandas placeholder text `Unnamed`; names such as `Column_0` do not match. -/
theorem c2_headers_flag_iff_unnamed (d : TabularDataset) (cfg : DiagnosticsConfig) :
    (runDiagnostics d cfg).headers_missing_suspected = some true ↔
      cfg.missing_headers = true ∧
        ∃ c ∈ d.colNames, pyStartsWith c "Unnamed" = true := by
  unfold runDiagnostics headersMissingSuspected
  cases hcfg : cfg.missing_headers <;> simp [List.any_eq_true]

/-- C3 (counterexample): the claim "a zero-column dataset reports
`empty_row_count` zero regardless of its row count" fails on the code: with
zero columns every row is vacuously fully missing, so `exZeroCols` (zero
columns, one row) reports a count of one. -/
theorem c3_counterexample :
    exZeroCols.ncols = 0 ∧ ¬ (emptyRowCount exZeroCols = 0) := by
  decide

/-- C3 (amended): for every rectangular zero-column dataset the empty-rows
check counts every row, because each row is vacuously fully missing. -/
theorem c3_zero_cols_counts_all_rows {d : TabularDataset} (hwf : d.wf)
    (h0 : d.ncols = 0) : emptyRowCount d = d.nrows := by
  unfold emptyRowCount TabularDataset.nrows
  have hfull : d.rows.filter (fun r => rowFullyMissing r) = d.rows := by
    refine List.filter_eq_self.mpr ?_
    intro r hr
    have hlen := hwf r hr
    unfold TabularDataset.ncols at h0
    rw [h0] at hlen
    rw [List.length_eq_zero.mp hlen]
    rfl
  rw [hfull]

/-- Witness for C3 (amended) at the concrete dataset `exZeroCols`. -/
theorem c3_zero_cols_counts_all_rows_witness :
    exZeroCols.wf ∧ exZeroCols.ncols = 0 ∧
    emptyRowCount exZeroCols = exZeroCols.nrows :=
  ⟨by decide, by decide, c3_zero_cols_counts_all_rows (by decide) (by decide)⟩

/-- C4: the source's sequential cleaning — drop fully-missing rows, then drop
the columns fully missing in the row-filtered result — produces exactly the
non-fully-missing rows and non-fully-missing columns of the original dataset,
both judged on the original, with the survivors in original relative order. -/
theorem c4_clean_exact_partition (d : TabularDataset) : clean d = cleanSpec d :=
  clean_eq_cleanSpec_aux d

/-- C5: cleaning is idempotent on rectangular datasets. -/
theorem c5_clean_idempotent {d : TabularDataset} (hwf : d.wf) :
    clean (clean d) = clean d := by
  have h1 : dropEmptyRows (clean d) = clean d :=
    dropEmptyRows_eq_self (clean_no_empty_rows hwf)
  have h2 : dropEmptyCols (clean d) = clean d :=
    dropEmptyCols_eq_self (clean_wf d) (clean_no_empty_cols d)
  show dropEmptyCols (dropEmptyRows (clean d)) = clean d
  rw [h1, h2]

/-- Witness for C5 at the concrete dataset `exCleanable`. -/
theorem c5_clean_idempotent_witness :
    exCleanable.wf ∧ clean (clean exCleanable) = clean exCleanable :=
  ⟨by decide, c5_clean_idempotent (by decide)⟩

/-- C6: a dataset with zero rows reports every column as empty — each column
is vacuously fully missing. -/
theorem c6_zero_rows_all_columns_empty {d : TabularDataset} (h : d.nrows = 0) :
    emptyColumns d = d.colNames := by
  have hrows : d.rows = [] := List.length_eq_zero.mp h
  unfold emptyColumns
  have hfilter : (List.range d.ncols).filter (fun j => colFullyMissing d j) =
      List.range d.ncols := by
    refine List.filter_eq_self.mpr ?_
    intro j _
    unfold colFullyMissing col
    rw [hrows]
    rfl
  rw [hfilter]
  exact range_map_getD d.colNames ""

/-- Witness for C6 at the concrete dataset `exZeroRows`. -/
theorem c6_zero_rows_all_columns_empty_witness :
    exZeroRows.nrows = 0 ∧ emptyColumns exZeroRows = exZeroRows.colNames :=
  ⟨by decide, c6_zero_rows_all_columns_empty (by decide)⟩

/-- C7: a check disabled in the configuration contributes no field to the
report — the field is `none`, never a zero or empty default — so absence and
"no issues found" are distinguishable. -/
theorem c7_disabled_checks_absent (d : TabularDataset) (cfg : DiagnosticsConfig) :
    ((runDiagnostics d cfg).empty_columns = none ↔ cfg.empty_columns = false) ∧
    ((runDiagnostics d cfg).empty_row_count = none ↔ cfg.empty_rows = false) ∧
    ((runDiagnostics d cfg).mixed_type_columns = none ↔ cfg.mixed_types = false) ∧
    ((runDiagnostics d cfg).headers_missing_suspected = none ↔
      cfg.missing_headers = false) := by
  obtain ⟨f1, f2, f3, f4⟩ := cfg
  cases f1 <;> cases f2 <;> cases f3 <;> cases f4 <;> simp [runDiagnostics]

/-- C8: the diagnostics engine is total — for every dataset (zero-row and
zero-column ones included) and every configuration it produces a complete
report: the shape fields always, and each check's field exactly when the
check is enabled. -/
theorem c8_engine_total_report (d : TabularDataset) (cfg : DiagnosticsConfig) :
    (runDiagnostics d cfg).row_count = d.nrows ∧
    (runDiagnostics d cfg).column_count = d.ncols ∧
    (runDiagnostics d cfg).column_names = d.colNames ∧
    ((runDiagnostics d cfg).empty_columns).isSome = cfg.empty_columns ∧
    ((runDiagnostics d cfg).empty_row_count).isSome = cfg.empty_rows ∧
    ((runDiagnostics d cfg).mixed_type_columns).isSome = cfg.mixed_types ∧
    ((runDiagnostics d cfg).headers_missing_suspected).isSome =
      cfg.missing_headers := by
  obtain ⟨f1, f2, f3, f4⟩ := cfg
  cases f1 <;> cases f2 <;> cases f3 <;> cases f4 <;> simp [runDiagnostics]

/-- C9: a fully-missing column never appears among the mixed-type report
keys: all of its cells are NaN, all typed `float`, so no two cells have
distinct runtime types. -/
theorem c9_fully_missing_never_mixed {d : TabularDataset} {j : Nat}
    (hj : j < d.ncols) (hnd : d.colNames.Nodup)
    (hm : colFullyMissing d j = true) :
    d.colNames.getD j "" ∉ (mixedTypeColumns d).map Prod.fst := by
  rw [mem_mixedTypeColumns_iff hj hnd, mem_mixedIdxs_iff]
  rintro ⟨-, x, hx, y, hy, hxy⟩
  unfold colFullyMissing at hm
  have hxm := List.all_eq_true.mp hm x hx
  have hym := List.all_eq_true.mp hm y hy
  exact hxy (by rw [runtimeType_of_missing hxm, runtimeType_of_missing hym])

/-- Witness for C9 at the concrete dataset `exAllMissingCol`. -/
theorem c9_fully_missing_never_mixed_witness :
    0 < exAllMissingCol.ncols ∧ exAllMissingCol.colNames.Nodup ∧
    colFullyMissing exAllMissingCol 0 = true ∧
    exAllMissingCol.colNames.getD 0 "" ∉
      (mixedTypeColumns exAllMissingCol).map Prod.fst :=
  ⟨by decide, by decide, by decide,
    c9_fully_missing_never_mixed (by decide) (by decide) (by decide)⟩

/-- C10: on rectangular datasets the two cleaning passes commute — dropping
fully-missing rows then fully-missing columns of the result equals dropping
fully-missing columns then fully-missing rows of the result. -/
theorem c10_row_col_passes_commute {d : TabularDataset} (hwf : d.wf) :
    dropEmptyCols (dropEmptyRows d) = dropEmptyRows (dropEmptyCols d) := by
  have hL : dropEmptyCols (dropEmptyRows d) = cleanSpec d := clean_eq_cleanSpec_aux d
  rw [hL]
  unfold cleanSpec dropEmptyRows dropEmptyCols
  simp only [TabularDataset.mk.injEq, true_and]
  symm
  refine filter_map_comm _ _ _ _ ?_
  intro r hr
  show (!(rowFullyMissing ((keepIdxs d).map fun j => r.getD j Cell.missing))) =
    !(rowFullyMissing r)
  rw [proj_fullyMissing hr (hwf r hr)]

/-- Witness for C10 at the concrete dataset `exCleanable`. -/
theorem c10_row_col_passes_commute_witness :
    exCleanable.wf ∧
    dropEmptyCols (dropEmptyRows exCleanable) =
      dropEmptyRows (dropEmptyCols exCleanable) :=
  ⟨by decide, c10_row_col_passes_commute (by decide)⟩

end Preptura
